import Mathlib

/-!
Shallow embedding of the dual-layer transaction lifecycle trackers of
`src/js/zksync.js/src/wallet.ts`: the `ETHOperation` class (outer-chain
tracker, lines 722–795) and the `Transaction` class (sidechain tracker,
lines 797–852), together with the `ZKSyncTxError` class (lines 29–36).

Each async method of the two classes is embedded as a pure function from
the tracker's mutable fields and a deterministic environment (the
responses of the external collaborators: `ethTx.wait()`,
`Provider.notifyPriorityOp`, `Provider.notifyTransaction`) to a triple of
 - the method's outcome (`Except`: a JS `throw` is `Except.error`, a JS
   `return x` is `Except.ok x`, with `undefined` as `Option.none`),
 - the tracker after the call (the mutation of `this`), and
 - the ordered list of network round trips the call issued.
-/

set_option maxHeartbeats 1000000

namespace ZkSync

/-- Confirmation depth string passed to the provider: "COMMIT" | "VERIFY". -/
inductive Flag
  | COMMIT
  | VERIFY
deriving DecidableEq, Repr

/-- Outcome of `SYNC_MAIN_CONTRACT_INTERFACE.parseLog` on one log entry of the
outer-chain inclusion receipt, reduced to what wallet.ts lines 739–740 read:
`none` when `parseLog` yields no parsed log, `some v` when it parses, where
`v : Option Nat` is the `values.serialId` field (`none` for a null serialId). -/
abbrev ParsedLog := Option (Option Nat)

/-- The inclusion receipt returned by `ethTx.wait()`; the tracker reads only
its ordered list of logs (wallet.ts line 738). -/
structure TxReceipt where
  logs : List ParsedLog
deriving DecidableEq, Repr

/-- PriorityOperationReceipt (declared in `./types`, a file not present in the
repository snapshot): wallet.ts reads only its `executed` flag (line 762);
`block` stands for the rest of the payload, unread by the tracker. -/
structure PriorityOperationReceipt where
  executed : Bool
  block : Nat := 0
deriving DecidableEq, Repr

/-- TransactionReceipt (declared in `./types`, not present in the snapshot):
wallet.ts reads `success` (line 819) and `failReason` (line 822, an optional
field rendered through a template literal); `block` stands for the rest of
the payload, unread by the tracker. -/
structure TransactionReceipt where
  success : Bool
  failReason : Option String := none
  block : Nat := 0
deriving DecidableEq, Repr

/-- The `value` field of ZKSyncTxError: `PriorityOperationReceipt | TransactionReceipt`. -/
inductive ReceiptValue
  | priority (r : PriorityOperationReceipt)
  | tx (r : TransactionReceipt)
deriving DecidableEq, Repr

/-- ZKSyncTxError (wallet.ts lines 29–36): an Error carrying a message and the
raw receipt as `value`. -/
structure ZKSyncTxError where
  message : String
  value : ReceiptValue
deriving DecidableEq, Repr

/-- A thrown JavaScript value: a plain `Error(message)` (wallet.ts line 745)
or a ZKSyncTxError. -/
inductive JsError
  | plain (message : String)
  | zk (e : ZKSyncTxError)
deriving DecidableEq, Repr

/-- One network round trip issued by a tracker method. -/
inductive NetCall
  | ethWait
  | notifyPriorityOp (serialId : Nat) (flag : Flag)
  | notifyTransaction (hash : String) (flag : Flag)
deriving DecidableEq, Repr

/-- Deterministic responses of the external collaborators for one call:
`ethTx.wait()`, `Provider.notifyPriorityOp`, `Provider.notifyTransaction`. -/
structure Env where
  ethWait : TxReceipt
  notifyPriorityOp : Nat → Flag → PriorityOperationReceipt
  notifyTransaction : String → Flag → TransactionReceipt

/-- ETHOperation.state: "Sent" | "Mined" | "Committed" | "Verified" | "Failed"
(wallet.ts line 723). -/
inductive EState
  | Sent
  | Mined
  | Committed
  | Verified
  | Failed
deriving DecidableEq, Repr

/-- Transaction.state: "Sent" | "Committed" | "Verified" | "Failed"
(wallet.ts line 798). -/
inductive TState
  | Sent
  | Committed
  | Verified
  | Failed
deriving DecidableEq, Repr

/-- Mutable fields of an ETHOperation tracker (wallet.ts lines 722–732); the
`ethTx` handle and provider are modelled by the `Env` passed to each call. -/
structure ETHOperation where
  state : EState
  error : Option ZKSyncTxError := none
  priorityOpId : Option Nat := none
deriving DecidableEq, Repr

/-- The ETHOperation constructor sets state to "Sent" (wallet.ts line 731);
`error` and `priorityOpId` start undefined. -/
def ETHOperation.init : ETHOperation := { state := EState.Sent }

/-- Mutable fields of a Transaction tracker (wallet.ts lines 797–807); the
`txData` payload and provider are not read by the tracker methods. -/
structure Transaction where
  txHash : String
  state : TState
  error : Option ZKSyncTxError := none
deriving DecidableEq, Repr

/-- The Transaction constructor stores the hash and sets state to "Sent"
(wallet.ts line 806). -/
def Transaction.init (h : String) : Transaction :=
  { txHash := h, state := TState.Sent }

instance {ε α : Type} [DecidableEq ε] [DecidableEq α] : DecidableEq (Except ε α) :=
  fun x y =>
    match x, y with
    | Except.ok a, Except.ok b =>
      if h : a = b then isTrue (by rw [h])
      else isFalse (by intro hx; cases hx; exact h rfl)
    | Except.ok _, Except.error _ => isFalse (by intro hx; cases hx)
    | Except.error _, Except.ok _ => isFalse (by intro hx; cases hx)
    | Except.error a, Except.error b =>
      if h : a = b then isTrue (by rw [h])
      else isFalse (by intro hx; cases hx; exact h rfl)

/-- Result of one ETHOperation method call: outcome, tracker after the call,
and the network calls issued. -/
structure EStep (α : Type) where
  res : Except JsError α
  op : ETHOperation
  calls : List NetCall
deriving DecidableEq, Repr

/-- Result of one Transaction method call. -/
structure TStep (α : Type) where
  res : Except JsError α
  tr : Transaction
  calls : List NetCall
deriving DecidableEq, Repr

/-- throwErrorIfFailedState throws `this.error` (wallet.ts lines 792–794 and
849–851); throwing an undefined error field is a JS `throw undefined`,
modelled as a plain error (unreachable from reachable trackers). -/
def errOf : Option ZKSyncTxError → JsError
  | some e => JsError.zk e
  | none => JsError.plain "undefined"

/-- One iteration of the log scan of awaitEthereumTxCommit (wallet.ts lines
738–743): a log that parses with a non-null serialId overwrites the current
`priorityOpId`, any other log leaves it unchanged. -/
def scanStep (acc : Option Nat) (l : ParsedLog) : Option Nat :=
  match l with
  | some (some n) => some n
  | _ => acc

/-- The whole `for (const log of txReceipt.logs)` loop of wallet.ts lines
738–743, acting on the `priorityOpId` field. -/
def scanLogs (logs : List ParsedLog) (acc : Option Nat) : Option Nat :=
  logs.foldl scanStep acc

/-- The serialId a single log contributes, if any. -/
def matchSerial (l : ParsedLog) : Option Nat :=
  match l with
  | some (some n) => some n
  | _ => none

/-- ETHOperation.awaitEthereumTxCommit (wallet.ts lines 734–750). Note the
`throw new Error("Failed to parse tx logs")` on line 745 happens after the
field writes of the loop and does not touch `state` or `error`. -/
def ETHOperation.awaitEthereumTxCommit (op : ETHOperation) (env : Env) :
    EStep (Option TxReceipt) :=
  if op.state ≠ EState.Sent then ⟨Except.ok none, op, []⟩
  else
    let txReceipt := env.ethWait
    let op1 : ETHOperation :=
      { op with priorityOpId := scanLogs txReceipt.logs op.priorityOpId }
    if op1.priorityOpId = none then
      ⟨Except.error (JsError.plain "Failed to parse tx logs"), op1, [NetCall.ethWait]⟩
    else
      ⟨Except.ok (some txReceipt), { op1 with state := EState.Mined }, [NetCall.ethWait]⟩

/-- ETHOperation.awaitReceipt (wallet.ts lines 752–771). Reading
`this.priorityOpId.toNumber()` with an undefined field would be a JS
TypeError, modelled as a plain error (unreachable from reachable trackers). -/
def ETHOperation.awaitReceipt (op : ETHOperation) (env : Env) :
    EStep (Option PriorityOperationReceipt) :=
  if op.state = EState.Failed then ⟨Except.error (errOf op.error), op, []⟩
  else
    match op.awaitEthereumTxCommit env with
    | ⟨Except.error e, op1, calls⟩ => ⟨Except.error e, op1, calls⟩
    | ⟨Except.ok _, op1, calls⟩ =>
      if op1.state ≠ EState.Mined then ⟨Except.ok none, op1, calls⟩
      else
        match op1.priorityOpId with
        | none => ⟨Except.error (JsError.plain "TypeError"), op1, calls⟩
        | some id =>
          let receipt := env.notifyPriorityOp id Flag.COMMIT
          let calls1 := calls ++ [NetCall.notifyPriorityOp id Flag.COMMIT]
          if receipt.executed = false then
            let e : ZKSyncTxError :=
              ⟨"Priority operation failed", ReceiptValue.priority receipt⟩
            ⟨Except.error (JsError.zk e),
             { op1 with state := EState.Failed, error := some e }, calls1⟩
          else
            ⟨Except.ok (some receipt), { op1 with state := EState.Committed }, calls1⟩

/-- ETHOperation.awaitVerifyReceipt (wallet.ts lines 773–785): after the
VERIFY-depth poll the state is set to "Verified" unconditionally; the
receipt's `executed` flag is not inspected at this depth. -/
def ETHOperation.awaitVerifyReceipt (op : ETHOperation) (env : Env) :
    EStep (Option PriorityOperationReceipt) :=
  match op.awaitReceipt env with
  | ⟨Except.error e, op1, calls⟩ => ⟨Except.error e, op1, calls⟩
  | ⟨Except.ok _, op1, calls⟩ =>
    if op1.state ≠ EState.Committed then ⟨Except.ok none, op1, calls⟩
    else
      match op1.priorityOpId with
      | none => ⟨Except.error (JsError.plain "TypeError"), op1, calls⟩
      | some id =>
        let receipt := env.notifyPriorityOp id Flag.VERIFY
        ⟨Except.ok (some receipt), { op1 with state := EState.Verified },
         calls ++ [NetCall.notifyPriorityOp id Flag.VERIFY]⟩

/-- JS template-literal rendering of the optional failReason field
(wallet.ts line 822): an undefined reason renders as "undefined". -/
def renderReason : Option String → String
  | some r => r
  | none => "undefined"

/-- Transaction.awaitReceipt (wallet.ts lines 809–831). -/
def Transaction.awaitReceipt (t : Transaction) (env : Env) :
    TStep (Option TransactionReceipt) :=
  if t.state = TState.Failed then ⟨Except.error (errOf t.error), t, []⟩
  else if t.state ≠ TState.Sent then ⟨Except.ok none, t, []⟩
  else
    let receipt := env.notifyTransaction t.txHash Flag.COMMIT
    let calls := [NetCall.notifyTransaction t.txHash Flag.COMMIT]
    if receipt.success = false then
      let e : ZKSyncTxError :=
        ⟨"zkSync transaction failed: " ++ renderReason receipt.failReason,
         ReceiptValue.tx receipt⟩
      ⟨Except.error (JsError.zk e),
       { t with state := TState.Failed, error := some e }, calls⟩
    else
      ⟨Except.ok (some receipt), { t with state := TState.Committed }, calls⟩

/-- Transaction.awaitVerifyReceipt (wallet.ts lines 833–842): after
awaitReceipt returns (in any non-Failed state) it polls VERIFY and sets
"Verified" unconditionally, with no guard on the current state. -/
def Transaction.awaitVerifyReceipt (t : Transaction) (env : Env) :
    TStep TransactionReceipt :=
  match t.awaitReceipt env with
  | ⟨Except.error e, t1, calls⟩ => ⟨Except.error e, t1, calls⟩
  | ⟨Except.ok _, t1, calls⟩ =>
    let receipt := env.notifyTransaction t1.txHash Flag.VERIFY
    ⟨Except.ok receipt, { t1 with state := TState.Verified },
     calls ++ [NetCall.notifyTransaction t1.txHash Flag.VERIFY]⟩

/-- The tracker operations a caller can invoke on an ETHOperation. -/
inductive ECall
  | ethCommit
  | receipt
  | verify
deriving DecidableEq, Repr

/-- Tracker after one caller-invoked ETHOperation method. -/
def ETHOperation.step (op : ETHOperation) (c : ECall) (env : Env) : ETHOperation :=
  match c with
  | ECall.ethCommit => (op.awaitEthereumTxCommit env).op
  | ECall.receipt => (op.awaitReceipt env).op
  | ECall.verify => (op.awaitVerifyReceipt env).op

/-- Tracker after a sequence of caller-invoked ETHOperation methods, each with
its own environment responses. -/
def ETHOperation.run (op : ETHOperation) : List (ECall × Env) → ETHOperation
  | [] => op
  | (c, env) :: rest => (op.step c env).run rest

/-- The tracker operations a caller can invoke on a Transaction. -/
inductive TCall
  | receipt
  | verify
deriving DecidableEq, Repr

/-- Tracker after one caller-invoked Transaction method. -/
def Transaction.step (t : Transaction) (c : TCall) (env : Env) : Transaction :=
  match c with
  | TCall.receipt => (t.awaitReceipt env).tr
  | TCall.verify => (t.awaitVerifyReceipt env).tr

/-- Tracker after a sequence of caller-invoked Transaction methods. -/
def Transaction.run (t : Transaction) : List (TCall × Env) → Transaction
  | [] => t
  | (c, env) :: rest => (t.step c env).run rest

/-! ### Characterization of each method by the tracker's current state -/

theorem awaitEthCommit_not_sent {op : ETHOperation} {env : Env}
    (h : op.state ≠ EState.Sent) :
    op.awaitEthereumTxCommit env = ⟨Except.ok none, op, []⟩ := by
  simp [ETHOperation.awaitEthereumTxCommit, h]

theorem awaitEthCommit_sent_none {op : ETHOperation} {env : Env}
    (h : op.state = EState.Sent)
    (hs : scanLogs env.ethWait.logs op.priorityOpId = none) :
    op.awaitEthereumTxCommit env =
      ⟨Except.error (JsError.plain "Failed to parse tx logs"),
       { op with priorityOpId := none }, [NetCall.ethWait]⟩ := by
  simp [ETHOperation.awaitEthereumTxCommit, h, hs]

theorem awaitEthCommit_sent_some {op : ETHOperation} {env : Env} {n : Nat}
    (h : op.state = EState.Sent)
    (hs : scanLogs env.ethWait.logs op.priorityOpId = some n) :
    op.awaitEthereumTxCommit env =
      ⟨Except.ok (some env.ethWait),
       { op with state := EState.Mined, priorityOpId := some n },
       [NetCall.ethWait]⟩ := by
  simp [ETHOperation.awaitEthereumTxCommit, h, hs]

theorem areceipt_failed {op : ETHOperation} {env : Env}
    (h : op.state = EState.Failed) :
    op.awaitReceipt env = ⟨Except.error (errOf op.error), op, []⟩ := by
  simp [ETHOperation.awaitReceipt, h]

theorem areceipt_done {op : ETHOperation} {env : Env}
    (h : op.state = EState.Committed ∨ op.state = EState.Verified) :
    op.awaitReceipt env = ⟨Except.ok none, op, []⟩ := by
  have h1 : op.state ≠ EState.Failed := by rcases h with h | h <;> simp [h]
  have h2 : op.state ≠ EState.Sent := by rcases h with h | h <;> simp [h]
  have h3 : op.state ≠ EState.Mined := by rcases h with h | h <;> simp [h]
  rw [ETHOperation.awaitReceipt, if_neg h1, awaitEthCommit_not_sent h2]
  simp [h3]

theorem areceipt_mined_none {op : ETHOperation} {env : Env}
    (h : op.state = EState.Mined) (hid : op.priorityOpId = none) :
    op.awaitReceipt env = ⟨Except.error (JsError.plain "TypeError"), op, []⟩ := by
  have h1 : op.state ≠ EState.Failed := by simp [h]
  have h2 : op.state ≠ EState.Sent := by simp [h]
  rw [ETHOperation.awaitReceipt, if_neg h1, awaitEthCommit_not_sent h2]
  simp [h, hid]

theorem areceipt_mined_ok {op : ETHOperation} {env : Env} {id : Nat}
    (h : op.state = EState.Mined) (hid : op.priorityOpId = some id)
    (hex : (env.notifyPriorityOp id Flag.COMMIT).executed = true) :
    op.awaitReceipt env =
      ⟨Except.ok (some (env.notifyPriorityOp id Flag.COMMIT)),
       { op with state := EState.Committed },
       [NetCall.notifyPriorityOp id Flag.COMMIT]⟩ := by
  have h1 : op.state ≠ EState.Failed := by simp [h]
  have h2 : op.state ≠ EState.Sent := by simp [h]
  rw [ETHOperation.awaitReceipt, if_neg h1, awaitEthCommit_not_sent h2]
  simp [h, hid, hex]

theorem areceipt_mined_fail {op : ETHOperation} {env : Env} {id : Nat}
    (h : op.state = EState.Mined) (hid : op.priorityOpId = some id)
    (hex : (env.notifyPriorityOp id Flag.COMMIT).executed = false) :
    op.awaitReceipt env =
      ⟨Except.error (JsError.zk ⟨"Priority operation failed",
          ReceiptValue.priority (env.notifyPriorityOp id Flag.COMMIT)⟩),
       { op with
         state := EState.Failed,
         error := some ⟨"Priority operation failed",
           ReceiptValue.priority (env.notifyPriorityOp id Flag.COMMIT)⟩ },
       [NetCall.notifyPriorityOp id Flag.COMMIT]⟩ := by
  have h1 : op.state ≠ EState.Failed := by simp [h]
  have h2 : op.state ≠ EState.Sent := by simp [h]
  rw [ETHOperation.awaitReceipt, if_neg h1, awaitEthCommit_not_sent h2]
  simp [h, hid, hex]

theorem areceipt_sent_none {op : ETHOperation} {env : Env}
    (h : op.state = EState.Sent)
    (hs : scanLogs env.ethWait.logs op.priorityOpId = none) :
    op.awaitReceipt env =
      ⟨Except.error (JsError.plain "Failed to parse tx logs"),
       { op with priorityOpId := none }, [NetCall.ethWait]⟩ := by
  have h1 : op.state ≠ EState.Failed := by simp [h]
  rw [ETHOperation.awaitReceipt, if_neg h1, awaitEthCommit_sent_none h hs]

theorem areceipt_sent_ok {op : ETHOperation} {env : Env} {n : Nat}
    (h : op.state = EState.Sent)
    (hs : scanLogs env.ethWait.logs op.priorityOpId = some n)
    (hex : (env.notifyPriorityOp n Flag.COMMIT).executed = true) :
    op.awaitReceipt env =
      ⟨Except.ok (some (env.notifyPriorityOp n Flag.COMMIT)),
       { op with state := EState.Committed, priorityOpId := some n },
       [NetCall.ethWait, NetCall.notifyPriorityOp n Flag.COMMIT]⟩ := by
  have h1 : op.state ≠ EState.Failed := by simp [h]
  rw [ETHOperation.awaitReceipt, if_neg h1, awaitEthCommit_sent_some h hs]
  simp [hex]

theorem areceipt_sent_fail {op : ETHOperation} {env : Env} {n : Nat}
    (h : op.state = EState.Sent)
    (hs : scanLogs env.ethWait.logs op.priorityOpId = some n)
    (hex : (env.notifyPriorityOp n Flag.COMMIT).executed = false) :
    op.awaitReceipt env =
      ⟨Except.error (JsError.zk ⟨"Priority operation failed",
          ReceiptValue.priority (env.notifyPriorityOp n Flag.COMMIT)⟩),
       { op with
         state := EState.Failed,
         priorityOpId := some n,
         error := some ⟨"Priority operation failed",
           ReceiptValue.priority (env.notifyPriorityOp n Flag.COMMIT)⟩ },
       [NetCall.ethWait, NetCall.notifyPriorityOp n Flag.COMMIT]⟩ := by
  have h1 : op.state ≠ EState.Failed := by simp [h]
  rw [ETHOperation.awaitReceipt, if_neg h1, awaitEthCommit_sent_some h hs]
  simp [hex]

theorem averify_failed {op : ETHOperation} {env : Env}
    (h : op.state = EState.Failed) :
    op.awaitVerifyReceipt env = ⟨Except.error (errOf op.error), op, []⟩ := by
  rw [ETHOperation.awaitVerifyReceipt, areceipt_failed h]

theorem averify_verified {op : ETHOperation} {env : Env}
    (h : op.state = EState.Verified) :
    op.awaitVerifyReceipt env = ⟨Except.ok none, op, []⟩ := by
  rw [ETHOperation.awaitVerifyReceipt, areceipt_done (Or.inr h)]
  simp [h]

theorem averify_committed {op : ETHOperation} {env : Env} {id : Nat}
    (h : op.state = EState.Committed) (hid : op.priorityOpId = some id) :
    op.awaitVerifyReceipt env =
      ⟨Except.ok (some (env.notifyPriorityOp id Flag.VERIFY)),
       { op with state := EState.Verified },
       [NetCall.notifyPriorityOp id Flag.VERIFY]⟩ := by
  rw [ETHOperation.awaitVerifyReceipt, areceipt_done (Or.inl h)]
  simp [h, hid]

theorem treceipt_failed {t : Transaction} {env : Env}
    (h : t.state = TState.Failed) :
    t.awaitReceipt env = ⟨Except.error (errOf t.error), t, []⟩ := by
  simp [Transaction.awaitReceipt, h]

theorem treceipt_done {t : Transaction} {env : Env}
    (h : t.state = TState.Committed ∨ t.state = TState.Verified) :
    t.awaitReceipt env = ⟨Except.ok none, t, []⟩ := by
  have h1 : t.state ≠ TState.Failed := by rcases h with h | h <;> simp [h]
  have h2 : t.state ≠ TState.Sent := by rcases h with h | h <;> simp [h]
  simp [Transaction.awaitReceipt, h1, h2]

theorem treceipt_sent_ok {t : Transaction} {env : Env}
    (h : t.state = TState.Sent)
    (hex : (env.notifyTransaction t.txHash Flag.COMMIT).success = true) :
    t.awaitReceipt env =
      ⟨Except.ok (some (env.notifyTransaction t.txHash Flag.COMMIT)),
       { t with state := TState.Committed },
       [NetCall.notifyTransaction t.txHash Flag.COMMIT]⟩ := by
  have h1 : t.state ≠ TState.Failed := by simp [h]
  simp [Transaction.awaitReceipt, h1, h, hex]

theorem treceipt_sent_fail {t : Transaction} {env : Env}
    (h : t.state = TState.Sent)
    (hex : (env.notifyTransaction t.txHash Flag.COMMIT).success = false) :
    t.awaitReceipt env =
      ⟨Except.error (JsError.zk ⟨"zkSync transaction failed: " ++
          renderReason (env.notifyTransaction t.txHash Flag.COMMIT).failReason,
          ReceiptValue.tx (env.notifyTransaction t.txHash Flag.COMMIT)⟩),
       { t with
         state := TState.Failed,
         error := some ⟨"zkSync transaction failed: " ++
           renderReason (env.notifyTransaction t.txHash Flag.COMMIT).failReason,
           ReceiptValue.tx (env.notifyTransaction t.txHash Flag.COMMIT)⟩ },
       [NetCall.notifyTransaction t.txHash Flag.COMMIT]⟩ := by
  have h1 : t.state ≠ TState.Failed := by simp [h]
  simp [Transaction.awaitReceipt, h1, h, hex]

theorem tverify_failed {t : Transaction} {env : Env}
    (h : t.state = TState.Failed) :
    t.awaitVerifyReceipt env = ⟨Except.error (errOf t.error), t, []⟩ := by
  rw [Transaction.awaitVerifyReceipt, treceipt_failed h]

theorem tverify_done {t : Transaction} {env : Env}
    (h : t.state = TState.Committed ∨ t.state = TState.Verified) :
    t.awaitVerifyReceipt env =
      ⟨Except.ok (env.notifyTransaction t.txHash Flag.VERIFY),
       { t with state := TState.Verified },
       [NetCall.notifyTransaction t.txHash Flag.VERIFY]⟩ := by
  rw [Transaction.awaitVerifyReceipt, treceipt_done h]
  rfl

theorem tverify_sent_ok {t : Transaction} {env : Env}
    (h : t.state = TState.Sent)
    (hex : (env.notifyTransaction t.txHash Flag.COMMIT).success = true) :
    t.awaitVerifyReceipt env =
      ⟨Except.ok (env.notifyTransaction t.txHash Flag.VERIFY),
       { t with state := TState.Verified },
       [NetCall.notifyTransaction t.txHash Flag.COMMIT,
        NetCall.notifyTransaction t.txHash Flag.VERIFY]⟩ := by
  rw [Transaction.awaitVerifyReceipt, treceipt_sent_ok h hex]
  rfl

theorem tverify_sent_fail {t : Transaction} {env : Env}
    (h : t.state = TState.Sent)
    (hex : (env.notifyTransaction t.txHash Flag.COMMIT).success = false) :
    t.awaitVerifyReceipt env =
      ⟨Except.error (JsError.zk ⟨"zkSync transaction failed: " ++
          renderReason (env.notifyTransaction t.txHash Flag.COMMIT).failReason,
          ReceiptValue.tx (env.notifyTransaction t.txHash Flag.COMMIT)⟩),
       { t with
         state := TState.Failed,
         error := some ⟨"zkSync transaction failed: " ++
           renderReason (env.notifyTransaction t.txHash Flag.COMMIT).failReason,
           ReceiptValue.tx (env.notifyTransaction t.txHash Flag.COMMIT)⟩ },
       [NetCall.notifyTransaction t.txHash Flag.COMMIT]⟩ := by
  rw [Transaction.awaitVerifyReceipt, treceipt_sent_fail h hex]

/-! ### The forward ordering on tracker states -/

/-- Position of an ETHOperation state in the forward ordering
Sent < Mined < Committed < Verified (Failed is outside the forward chain). -/
def EState.rank : EState → Nat
  | EState.Sent => 0
  | EState.Mined => 1
  | EState.Committed => 2
  | EState.Verified => 3
  | EState.Failed => 4

/-- s may evolve to u: Failed is absorbing, and otherwise the state either
fails or moves forward in the ordering Sent < Mined < Committed < Verified. -/
def EState.le (s u : EState) : Prop :=
  (s = EState.Failed → u = EState.Failed) ∧
  (s ≠ EState.Failed → u = EState.Failed ∨ EState.rank s ≤ EState.rank u)

instance (s u : EState) : Decidable (EState.le s u) := by
  unfold EState.le
  infer_instance

theorem estate_le_refl (s : EState) : EState.le s s := by
  cases s <;> decide

theorem estate_le_trans {s u v : EState} (h1 : EState.le s u)
    (h2 : EState.le u v) : EState.le s v := by
  revert h1 h2
  cases s <;> cases u <;> cases v <;> decide

/-- Position of a Transaction state in the forward ordering
Sent < Committed < Verified. -/
def TState.rank : TState → Nat
  | TState.Sent => 0
  | TState.Committed => 1
  | TState.Verified => 2
  | TState.Failed => 3

/-- s may evolve to u for the sidechain tracker. -/
def TState.le (s u : TState) : Prop :=
  (s = TState.Failed → u = TState.Failed) ∧
  (s ≠ TState.Failed → u = TState.Failed ∨ TState.rank s ≤ TState.rank u)

instance (s u : TState) : Decidable (TState.le s u) := by
  unfold TState.le
  infer_instance

theorem tstate_le_refl (s : TState) : TState.le s s := by
  cases s <;> decide

theorem tstate_le_trans {s u v : TState} (h1 : TState.le s u)
    (h2 : TState.le u v) : TState.le s v := by
  revert h1 h2
  cases s <;> cases u <;> cases v <;> decide

/-! ### Per-method monotonicity of the state -/

theorem emono_ethCommit (op : ETHOperation) (env : Env) :
    EState.le op.state ((op.awaitEthereumTxCommit env).op).state := by
  by_cases h : op.state = EState.Sent
  · rcases hs : scanLogs env.ethWait.logs op.priorityOpId with _ | n
    · rw [awaitEthCommit_sent_none h hs, h]
      show EState.le EState.Sent EState.Sent
      decide
    · rw [awaitEthCommit_sent_some h hs, h]
      show EState.le EState.Sent EState.Mined
      decide
  · rw [awaitEthCommit_not_sent h]
    exact estate_le_refl _

theorem emono_receipt (op : ETHOperation) (env : Env) :
    EState.le op.state ((op.awaitReceipt env).op).state := by
  rcases h : op.state with _ | _ | _ | _ | _
  · rcases hs : scanLogs env.ethWait.logs op.priorityOpId with _ | n
    · rw [areceipt_sent_none h hs, h]
      show EState.le EState.Sent EState.Sent
      decide
    · rcases hex : (env.notifyPriorityOp n Flag.COMMIT).executed with _ | _
      · rw [areceipt_sent_fail h hs hex]
        show EState.le EState.Sent EState.Failed
        decide
      · rw [areceipt_sent_ok h hs hex]
        show EState.le EState.Sent EState.Committed
        decide
  · rcases hid : op.priorityOpId with _ | id
    · rw [areceipt_mined_none h hid, h]
      show EState.le EState.Mined EState.Mined
      decide
    · rcases hex : (env.notifyPriorityOp id Flag.COMMIT).executed with _ | _
      · rw [areceipt_mined_fail h hid hex]
        show EState.le EState.Mined EState.Failed
        decide
      · rw [areceipt_mined_ok h hid hex]
        show EState.le EState.Mined EState.Committed
        decide
  · rw [areceipt_done (Or.inl h), h]
    show EState.le EState.Committed EState.Committed
    decide
  · rw [areceipt_done (Or.inr h), h]
    show EState.le EState.Verified EState.Verified
    decide
  · rw [areceipt_failed h, h]
    show EState.le EState.Failed EState.Failed
    decide

theorem emono_verify (op : ETHOperation) (env : Env) :
    EState.le op.state ((op.awaitVerifyReceipt env).op).state := by
  have h1 := emono_receipt op env
  rcases hr : op.awaitReceipt env with ⟨res, op1, calls⟩
  rw [hr] at h1
  rcases res with e | v
  · rw [ETHOperation.awaitVerifyReceipt, hr]
    exact h1
  · rw [ETHOperation.awaitVerifyReceipt, hr]
    by_cases hc : op1.state = EState.Committed
    · rcases hid : op1.priorityOpId with _ | id
      · simp only [hc]
        simp [hid]
        exact h1
      · simp only [hc]
        simp [hid]
        refine estate_le_trans h1 ?_
        rw [hc]; decide
    · simp [hc]
      exact h1

theorem emono_step (op : ETHOperation) (c : ECall) (env : Env) :
    EState.le op.state ((op.step c env).state) := by
  cases c
  · exact emono_ethCommit op env
  · exact emono_receipt op env
  · exact emono_verify op env

theorem emono_run (op : ETHOperation) (seq : List (ECall × Env)) :
    EState.le op.state ((op.run seq).state) := by
  induction seq generalizing op with
  | nil => exact estate_le_refl _
  | cons p rest ih =>
    rcases p with ⟨c, env⟩
    exact estate_le_trans (emono_step op c env) (ih (op.step c env))

theorem tmono_receipt (t : Transaction) (env : Env) :
    TState.le t.state ((t.awaitReceipt env).tr).state := by
  rcases h : t.state with _ | _ | _ | _
  · rcases hex : (env.notifyTransaction t.txHash Flag.COMMIT).success with _ | _
    · rw [treceipt_sent_fail h hex]
      show TState.le TState.Sent TState.Failed
      decide
    · rw [treceipt_sent_ok h hex]
      show TState.le TState.Sent TState.Committed
      decide
  · rw [treceipt_done (Or.inl h), h]
    show TState.le TState.Committed TState.Committed
    decide
  · rw [treceipt_done (Or.inr h), h]
    show TState.le TState.Verified TState.Verified
    decide
  · rw [treceipt_failed h, h]
    show TState.le TState.Failed TState.Failed
    decide

theorem tmono_verify (t : Transaction) (env : Env) :
    TState.le t.state ((t.awaitVerifyReceipt env).tr).state := by
  rcases h : t.state with _ | _ | _ | _
  · rcases hex : (env.notifyTransaction t.txHash Flag.COMMIT).success with _ | _
    · rw [tverify_sent_fail h hex]
      show TState.le TState.Sent TState.Failed
      decide
    · rw [tverify_sent_ok h hex]
      show TState.le TState.Sent TState.Verified
      decide
  · rw [tverify_done (Or.inl h)]
    show TState.le TState.Committed TState.Verified
    decide
  · rw [tverify_done (Or.inr h)]
    show TState.le TState.Verified TState.Verified
    decide
  · rw [tverify_failed h, h]
    show TState.le TState.Failed TState.Failed
    decide

theorem tmono_step (t : Transaction) (c : TCall) (env : Env) :
    TState.le t.state ((t.step c env).state) := by
  cases c
  · exact tmono_receipt t env
  · exact tmono_verify t env

theorem tmono_run (t : Transaction) (seq : List (TCall × Env)) :
    TState.le t.state ((t.run seq).state) := by
  induction seq generalizing t with
  | nil => exact tstate_le_refl _
  | cons p rest ih =>
    rcases p with ⟨c, env⟩
    exact tstate_le_trans (tmono_step t c env) (ih (t.step c env))

/-! ### Invariants of reachable trackers -/

/-- Invariant of ETHOperation trackers: the error field is set exactly in the
Failed state, and once the state has left Sent the priorityOpId is set. -/
def EInv (op : ETHOperation) : Prop :=
  (op.error.isSome ↔ op.state = EState.Failed) ∧
  (op.state ≠ EState.Sent → op.priorityOpId.isSome)

/-- Invariant of Transaction trackers: the error field is set exactly in the
Failed state. -/
def TInv (t : Transaction) : Prop :=
  t.error.isSome ↔ t.state = TState.Failed

theorem einv_init : EInv ETHOperation.init := by
  constructor <;> simp [ETHOperation.init]

theorem tinv_init (h : String) : TInv (Transaction.init h) := by
  simp [TInv, Transaction.init]

theorem einv_ethCommit {op : ETHOperation} (env : Env) (hinv : EInv op) :
    EInv ((op.awaitEthereumTxCommit env).op) := by
  by_cases h : op.state = EState.Sent
  · rcases hs : scanLogs env.ethWait.logs op.priorityOpId with _ | n
    · rw [awaitEthCommit_sent_none h hs]
      rcases hinv with ⟨h1, h2⟩
      exact ⟨by simpa using h1, by simp [h]⟩
    · rw [awaitEthCommit_sent_some h hs]
      rcases hinv with ⟨h1, h2⟩
      refine ⟨?_, by simp⟩
      rw [h] at h1
      simpa using h1
  · rw [awaitEthCommit_not_sent h]
    exact hinv

theorem einv_receipt {op : ETHOperation} (env : Env) (hinv : EInv op) :
    EInv ((op.awaitReceipt env).op) := by
  rcases h : op.state with _ | _ | _ | _ | _
  · rcases hs : scanLogs env.ethWait.logs op.priorityOpId with _ | n
    · rw [areceipt_sent_none h hs]
      rcases hinv with ⟨h1, h2⟩
      exact ⟨by simpa [h] using h1, by simp [h]⟩
    · rcases hex : (env.notifyPriorityOp n Flag.COMMIT).executed with _ | _
      · rw [areceipt_sent_fail h hs hex]
        exact ⟨by simp, by simp⟩
      · rw [areceipt_sent_ok h hs hex]
        rcases hinv with ⟨h1, h2⟩
        refine ⟨?_, by simp⟩
        rw [h] at h1
        simpa using h1
  · have hid : op.priorityOpId.isSome := hinv.2 (by simp [h])
    rcases hid2 : op.priorityOpId with _ | id
    · rw [hid2] at hid
      simp at hid
    · rcases hex : (env.notifyPriorityOp id Flag.COMMIT).executed with _ | _
      · rw [areceipt_mined_fail h hid2 hex]
        exact ⟨by simp, by simpa [h] using hinv.2⟩
      · rw [areceipt_mined_ok h hid2 hex]
        rcases hinv with ⟨h1, h2⟩
        refine ⟨?_, by simpa [h] using h2⟩
        rw [h] at h1
        simpa using h1
  · rw [areceipt_done (Or.inl h)]
    exact hinv
  · rw [areceipt_done (Or.inr h)]
    exact hinv
  · rw [areceipt_failed h]
    exact hinv

theorem einv_verify {op : ETHOperation} (env : Env) (hinv : EInv op) :
    EInv ((op.awaitVerifyReceipt env).op) := by
  have h1 : EInv ((op.awaitReceipt env).op) := einv_receipt env hinv
  rcases hr : op.awaitReceipt env with ⟨res, op1, calls⟩
  rw [hr] at h1
  rcases res with e | v
  · rw [ETHOperation.awaitVerifyReceipt, hr]
    exact h1
  · rw [ETHOperation.awaitVerifyReceipt, hr]
    by_cases hc : op1.state = EState.Committed
    · rcases hid : op1.priorityOpId with _ | id
      · simpa [hc, hid] using h1
      · simp only [hc]
        simp [hid]
        rcases h1 with ⟨h1a, h1b⟩
        refine ⟨?_, by simp [hid]⟩
        rw [hc] at h1a
        simpa using h1a
    · simpa [hc] using h1

theorem einv_step {op : ETHOperation} (c : ECall) (env : Env) (hinv : EInv op) :
    EInv (op.step c env) := by
  cases c
  · exact einv_ethCommit env hinv
  · exact einv_receipt env hinv
  · exact einv_verify env hinv

theorem einv_run {op : ETHOperation} (seq : List (ECall × Env)) (hinv : EInv op) :
    EInv (op.run seq) := by
  induction seq generalizing op with
  | nil => exact hinv
  | cons p rest ih =>
    rcases p with ⟨c, env⟩
    exact ih (einv_step c env hinv)

theorem tinv_receipt {t : Transaction} (env : Env) (hinv : TInv t) :
    TInv ((t.awaitReceipt env).tr) := by
  rcases h : t.state with _ | _ | _ | _
  · rcases hex : (env.notifyTransaction t.txHash Flag.COMMIT).success with _ | _
    · rw [treceipt_sent_fail h hex]
      simp [TInv]
    · rw [treceipt_sent_ok h hex]
      unfold TInv at hinv ⊢
      rw [h] at hinv
      simpa using hinv
  · rw [treceipt_done (Or.inl h)]
    exact hinv
  · rw [treceipt_done (Or.inr h)]
    exact hinv
  · rw [treceipt_failed h]
    exact hinv

theorem tinv_verify {t : Transaction} (env : Env) (hinv : TInv t) :
    TInv ((t.awaitVerifyReceipt env).tr) := by
  rcases h : t.state with _ | _ | _ | _
  · rcases hex : (env.notifyTransaction t.txHash Flag.COMMIT).success with _ | _
    · rw [tverify_sent_fail h hex]
      simp [TInv]
    · rw [tverify_sent_ok h hex]
      unfold TInv at hinv ⊢
      rw [h] at hinv
      simpa using hinv
  · rw [tverify_done (Or.inl h)]
    unfold TInv at hinv ⊢
    rw [h] at hinv
    simpa using hinv
  · rw [tverify_done (Or.inr h)]
    unfold TInv at hinv ⊢
    rw [h] at hinv
    simpa using hinv
  · rw [tverify_failed h]
    exact hinv

theorem tinv_step {t : Transaction} (c : TCall) (env : Env) (hinv : TInv t) :
    TInv (t.step c env) := by
  cases c
  · exact tinv_receipt env hinv
  · exact tinv_verify env hinv

theorem tinv_run {t : Transaction} (seq : List (TCall × Env)) (hinv : TInv t) :
    TInv (t.run seq) := by
  induction seq generalizing t with
  | nil => exact hinv
  | cons p rest ih =>
    rcases p with ⟨c, env⟩
    exact ih (tinv_step c env hinv)

/-! ### The log scan keeps the serialId of the last matching log -/

theorem scanStep_eq (acc : Option Nat) (l : ParsedLog) :
    scanStep acc l = match matchSerial l with
      | some n => some n
      | none => acc := by
  rcases l with _ | l
  · rfl
  · rcases l with _ | n <;> rfl

theorem scanLogs_eq_getLast (logs : List ParsedLog) (acc : Option Nat) :
    scanLogs logs acc = match (logs.filterMap matchSerial).getLast? with
      | some n => some n
      | none => acc := by
  induction logs using List.reverseRecOn with
  | nil => rfl
  | append_singleton l a ih =>
    rw [scanLogs, List.foldl_append]
    rw [show List.foldl scanStep acc l = scanLogs l acc from rfl, ih]
    rw [List.filterMap_append]
    rcases hm : matchSerial a with _ | n
    · simp only [List.foldl_cons, List.foldl_nil, scanStep_eq, hm, List.filterMap_cons,
        List.filterMap_nil, List.append_nil]
    · simp only [List.foldl_cons, List.foldl_nil, scanStep_eq, hm, List.filterMap_cons,
        List.filterMap_nil, List.getLast?_concat]

/-! ### Concrete environments used by counterexamples and witnesses -/

/-- Environment whose inclusion receipt has one matching log with serialId 42
and whose polls all succeed. -/
def envGood : Env :=
  { ethWait := ⟨[some (some 42)]⟩,
    notifyPriorityOp := fun _ _ => ⟨true, 0⟩,
    notifyTransaction := fun _ _ => ⟨true, none, 0⟩ }

/-- Environment whose inclusion receipt has no matching log (one unparsed log
and one parsed log with a null serialId). -/
def envNoLog : Env :=
  { ethWait := ⟨[none, some none]⟩,
    notifyPriorityOp := fun _ _ => ⟨true, 0⟩,
    notifyTransaction := fun _ _ => ⟨true, none, 0⟩ }

/-- Environment that reports success at COMMIT depth and failure at VERIFY
depth, for both providers. -/
def envVerifyFail : Env :=
  { ethWait := ⟨[some (some 42)]⟩,
    notifyPriorityOp := fun _ f =>
      match f with
      | Flag.COMMIT => ⟨true, 0⟩
      | Flag.VERIFY => ⟨false, 0⟩,
    notifyTransaction := fun _ f =>
      match f with
      | Flag.COMMIT => ⟨true, none, 0⟩
      | Flag.VERIFY => ⟨false, some "proof failed", 0⟩ }

/-- Environment that reports failure at COMMIT depth for both providers. -/
def envCommitFail : Env :=
  { ethWait := ⟨[some (some 42)]⟩,
    notifyPriorityOp := fun _ _ => ⟨false, 7⟩,
    notifyTransaction := fun _ _ => ⟨false, some "insufficient balance", 9⟩ }

/-- Environment whose inclusion receipt has two matching logs (serialIds 1
then 2) with an unmatched log between them. -/
def envTwoLogs : Env :=
  { ethWait := ⟨[some (some 1), none, some (some 2)]⟩,
    notifyPriorityOp := fun _ _ => ⟨true, 0⟩,
    notifyTransaction := fun _ _ => ⟨true, none, 0⟩ }

/-! ### Claims -/

/-- C1, counterexample: on an inclusion receipt with no matching
priority-operation log, awaiting the tracker raises the log-parse error but
the tracker does not transition to Failed, stores no error, and a second
await issues new network activity (it re-awaits the inclusion receipt),
contradicting the claim that the tracker moves to Failed with a stored error
returned thereafter without network activity. -/
theorem C1_counterexample :
    (ETHOperation.init.awaitReceipt envNoLog).res =
        Except.error (JsError.plain "Failed to parse tx logs") ∧
    (ETHOperation.init.awaitReceipt envNoLog).op.state = EState.Sent ∧
    (ETHOperation.init.awaitReceipt envNoLog).op.state ≠ EState.Failed ∧
    (ETHOperation.init.awaitReceipt envNoLog).op.error = none ∧
    ((ETHOperation.init.awaitReceipt envNoLog).op.awaitReceipt envNoLog).calls =
        [NetCall.ethWait] := by
  decide

/-- C1, amended: if the inclusion receipt contains no log matching the
priority-operation event, the await call raises the "Failed to parse tx logs"
error and the tracker never reaches Mined; however the state remains Sent
(not Failed), no error is stored, and a subsequent await re-issues the
inclusion wait (new network activity) and raises the same error again. -/
theorem C1_theorem : ∀ env : Env, scanLogs env.ethWait.logs none = none →
    (ETHOperation.init.awaitReceipt env).res =
        Except.error (JsError.plain "Failed to parse tx logs") ∧
    (ETHOperation.init.awaitReceipt env).op.state = EState.Sent ∧
    (ETHOperation.init.awaitReceipt env).op.error = none ∧
    (ETHOperation.init.awaitReceipt env).calls = [NetCall.ethWait] ∧
    (ETHOperation.init.awaitReceipt env).op.awaitReceipt env =
      ⟨Except.error (JsError.plain "Failed to parse tx logs"),
       (ETHOperation.init.awaitReceipt env).op, [NetCall.ethWait]⟩ := by
  intro env h
  have hs : scanLogs env.ethWait.logs ETHOperation.init.priorityOpId = none := h
  rw [areceipt_sent_none rfl hs]
  refine ⟨rfl, rfl, rfl, rfl, ?_⟩
  have hs2 : scanLogs env.ethWait.logs
      ({ ETHOperation.init with priorityOpId := none } : ETHOperation).priorityOpId =
      none := h
  rw [areceipt_sent_none rfl hs2]

/-- C1, witness: the amended theorem evaluated at a concrete environment whose
inclusion receipt holds one unparsed log and one log with a null serialId. -/
theorem C1_witness :
    (ETHOperation.init.awaitReceipt envNoLog).op.state = EState.Sent :=
  (C1_theorem envNoLog (by decide)).2.1

/-- C2, counterexample: after a successful COMMIT, a VERIFY-depth disposition
marked as failed still drives both trackers to Verified, not Failed,
contradicting the claim. -/
theorem C2_counterexample :
    (envVerifyFail.notifyPriorityOp 42 Flag.VERIFY).executed = false ∧
    (ETHOperation.init.awaitVerifyReceipt envVerifyFail).op.state = EState.Verified ∧
    (ETHOperation.init.awaitVerifyReceipt envVerifyFail).op.state ≠ EState.Failed ∧
    (envVerifyFail.notifyTransaction "h" Flag.VERIFY).success = false ∧
    ((Transaction.init "h").awaitVerifyReceipt envVerifyFail).tr.state =
      TState.Verified := by
  decide

/-- C2, amended: when a poll at VERIFY depth returns a terminal disposition,
both trackers transition to Verified regardless of whether the disposition is
marked as a failure: neither awaitVerifyReceipt inspects the success flag of
the VERIFY-depth receipt. -/
theorem C2_theorem :
    (∀ (env : Env) (op : ETHOperation) (id : Nat),
      op.state = EState.Committed → op.priorityOpId = some id →
      (op.awaitVerifyReceipt env).op.state = EState.Verified ∧
      (op.awaitVerifyReceipt env).res =
        Except.ok (some (env.notifyPriorityOp id Flag.VERIFY))) ∧
    (∀ (env : Env) (t : Transaction),
      t.state = TState.Committed →
      (t.awaitVerifyReceipt env).tr.state = TState.Verified ∧
      (t.awaitVerifyReceipt env).res =
        Except.ok (env.notifyTransaction t.txHash Flag.VERIFY)) := by
  constructor
  · intro env op id h hid
    rw [averify_committed h hid]
    exact ⟨rfl, rfl⟩
  · intro env t h
    rw [tverify_done (Or.inl h)]
    exact ⟨rfl, rfl⟩

/-- C2, witness: both amended parts evaluated on trackers in Committed with an
environment whose VERIFY-depth dispositions are marked as failures. -/
theorem C2_witness :
    ((⟨EState.Committed, none, some 42⟩ : ETHOperation).awaitVerifyReceipt
        envVerifyFail).op.state = EState.Verified ∧
    ((⟨"h", TState.Committed, none⟩ : Transaction).awaitVerifyReceipt
        envVerifyFail).tr.state = TState.Verified :=
  ⟨(C2_theorem.1 envVerifyFail ⟨EState.Committed, none, some 42⟩ 42 rfl rfl).1,
   (C2_theorem.2 envVerifyFail ⟨"h", TState.Committed, none⟩ rfl).1⟩

/-- C3, counterexample: a Transaction tracker already in Verified re-polls the
network on a repeated awaitVerifyReceipt call, contradicting the claim that a
tracker at the requested depth issues zero additional observer calls. -/
theorem C3_counterexample :
    ((Transaction.init "h").awaitVerifyReceipt envGood).tr.state =
      TState.Verified ∧
    ((((Transaction.init "h").awaitVerifyReceipt envGood).tr.awaitVerifyReceipt
        envGood).calls = [NetCall.notifyTransaction "h" Flag.VERIFY]) := by
  decide

/-- C3, amended: re-awaiting a reached depth issues zero additional observer
calls and returns the same (undefined) result each time for
ETHOperation.awaitReceipt, ETHOperation.awaitVerifyReceipt and
Transaction.awaitReceipt, and a Failed tracker issues no calls from any
await; the exception is Transaction.awaitVerifyReceipt, which on a tracker
already in Verified issues one fresh VERIFY-depth poll (leaving the tracker
unchanged and returning the fresh receipt). -/
theorem C3_theorem :
    (∀ (env : Env) (op : ETHOperation),
      op.state = EState.Committed ∨ op.state = EState.Verified →
      op.awaitReceipt env = ⟨Except.ok none, op, []⟩) ∧
    (∀ (env : Env) (op : ETHOperation),
      op.state = EState.Verified →
      op.awaitVerifyReceipt env = ⟨Except.ok none, op, []⟩) ∧
    (∀ (env : Env) (op : ETHOperation),
      op.state = EState.Failed →
      (op.awaitReceipt env).calls = [] ∧ (op.awaitVerifyReceipt env).calls = []) ∧
    (∀ (env : Env) (t : Transaction),
      t.state = TState.Committed ∨ t.state = TState.Verified →
      t.awaitReceipt env = ⟨Except.ok none, t, []⟩) ∧
    (∀ (env : Env) (t : Transaction),
      t.state = TState.Failed →
      (t.awaitReceipt env).calls = [] ∧ (t.awaitVerifyReceipt env).calls = []) ∧
    (∀ (env : Env) (t : Transaction),
      t.state = TState.Verified →
      (t.awaitVerifyReceipt env).tr = t ∧
      (t.awaitVerifyReceipt env).calls =
        [NetCall.notifyTransaction t.txHash Flag.VERIFY]) := by
  refine ⟨?_, ?_, ?_, ?_, ?_, ?_⟩
  · intro env op h
    exact areceipt_done h
  · intro env op h
    exact averify_verified h
  · intro env op h
    rw [areceipt_failed h, averify_failed h]
    exact ⟨rfl, rfl⟩
  · intro env t h
    exact treceipt_done h
  · intro env t h
    rw [treceipt_failed h, tverify_failed h]
    exact ⟨rfl, rfl⟩
  · intro env t h
    rw [tverify_done (Or.inr h)]
    refine ⟨?_, rfl⟩
    rcases t with ⟨a, st, c⟩
    simp only at h
    rw [h]

/-- C3, witness: the amended theorem's clauses evaluated on concrete trackers
at each relevant state. -/
theorem C3_witness :
    ((⟨EState.Committed, none, some 5⟩ : ETHOperation).awaitReceipt envGood =
      ⟨Except.ok none, ⟨EState.Committed, none, some 5⟩, []⟩) ∧
    ((⟨EState.Verified, none, some 5⟩ : ETHOperation).awaitVerifyReceipt envGood =
      ⟨Except.ok none, ⟨EState.Verified, none, some 5⟩, []⟩) ∧
    ((⟨"h", TState.Committed, none⟩ : Transaction).awaitReceipt envGood =
      ⟨Except.ok none, ⟨"h", TState.Committed, none⟩, []⟩) ∧
    ((⟨"h", TState.Verified, none⟩ : Transaction).awaitVerifyReceipt envGood).calls =
      [NetCall.notifyTransaction "h" Flag.VERIFY] :=
  ⟨C3_theorem.1 envGood ⟨EState.Committed, none, some 5⟩ (Or.inl rfl),
   C3_theorem.2.1 envGood ⟨EState.Verified, none, some 5⟩ rfl,
   C3_theorem.2.2.2.1 envGood ⟨"h", TState.Committed, none⟩ (Or.inl rfl),
   (C3_theorem.2.2.2.2.2 envGood ⟨"h", TState.Verified, none⟩ rfl).2⟩

/-- C4: awaitVerifyReceipt on a fresh outer-chain tracker whose inclusion
receipt yields a serialId drives the state machine through Mined and
Committed before Verified (witnessed by the states of the prefix calls and
the ordered call trace), and if the COMMIT-depth poll reports a failed
disposition the tracker ends in Failed and that call issues no VERIFY-depth
poll. -/
theorem C4_theorem : ∀ (env : Env) (id : Nat),
    scanLogs env.ethWait.logs none = some id →
    ((env.notifyPriorityOp id Flag.COMMIT).executed = false →
      (ETHOperation.init.awaitVerifyReceipt env).op.state = EState.Failed ∧
      (ETHOperation.init.awaitVerifyReceipt env).calls =
        [NetCall.ethWait, NetCall.notifyPriorityOp id Flag.COMMIT] ∧
      (∀ i : Nat, NetCall.notifyPriorityOp i Flag.VERIFY ∉
        (ETHOperation.init.awaitVerifyReceipt env).calls)) ∧
    ((env.notifyPriorityOp id Flag.COMMIT).executed = true →
      (ETHOperation.init.awaitEthereumTxCommit env).op.state = EState.Mined ∧
      (ETHOperation.init.awaitReceipt env).op.state = EState.Committed ∧
      (ETHOperation.init.awaitVerifyReceipt env).op.state = EState.Verified ∧
      (ETHOperation.init.awaitVerifyReceipt env).calls =
        [NetCall.ethWait, NetCall.notifyPriorityOp id Flag.COMMIT,
         NetCall.notifyPriorityOp id Flag.VERIFY]) := by
  intro env id hs0
  have hs : scanLogs env.ethWait.logs ETHOperation.init.priorityOpId = some id := hs0
  constructor
  · intro hex
    have hr := areceipt_sent_fail rfl hs hex
    rw [ETHOperation.awaitVerifyReceipt, hr]
    refine ⟨rfl, rfl, ?_⟩
    intro i
    simp
  · intro hex
    have hr := areceipt_sent_ok rfl hs hex
    refine ⟨?_, ?_, ?_, ?_⟩
    · rw [awaitEthCommit_sent_some rfl hs]
    · rw [hr]
    · rw [ETHOperation.awaitVerifyReceipt, hr]
      rfl
    · rw [ETHOperation.awaitVerifyReceipt, hr]
      rfl

/-- C4, witness: the theorem evaluated on an environment with serialId 42 and
an all-success network, and on one whose COMMIT-depth poll fails. -/
theorem C4_witness :
    (ETHOperation.init.awaitVerifyReceipt envGood).op.state = EState.Verified ∧
    (ETHOperation.init.awaitVerifyReceipt envCommitFail).op.state = EState.Failed :=
  ⟨((C4_theorem envGood 42 (by decide)).2 (by decide)).2.2.1,
   ((C4_theorem envCommitFail 42 (by decide)).1 (by decide)).1⟩

/-- C5: for both trackers, any reachable tracker in the Failed state has a
stored error, and every subsequent awaitReceipt or awaitVerifyReceipt call
raises exactly that stored error, leaves the tracker unchanged and issues no
network call. -/
theorem C5_theorem :
    (∀ (seq : List (ECall × Env)) (env : Env),
      (ETHOperation.init.run seq).state = EState.Failed →
      ∃ e : ZKSyncTxError,
        (ETHOperation.init.run seq).error = some e ∧
        (ETHOperation.init.run seq).awaitReceipt env =
          ⟨Except.error (JsError.zk e), ETHOperation.init.run seq, []⟩ ∧
        (ETHOperation.init.run seq).awaitVerifyReceipt env =
          ⟨Except.error (JsError.zk e), ETHOperation.init.run seq, []⟩) ∧
    (∀ (h : String) (seq : List (TCall × Env)) (env : Env),
      ((Transaction.init h).run seq).state = TState.Failed →
      ∃ e : ZKSyncTxError,
        ((Transaction.init h).run seq).error = some e ∧
        ((Transaction.init h).run seq).awaitReceipt env =
          ⟨Except.error (JsError.zk e), (Transaction.init h).run seq, []⟩ ∧
        ((Transaction.init h).run seq).awaitVerifyReceipt env =
          ⟨Except.error (JsError.zk e), (Transaction.init h).run seq, []⟩) := by
  constructor
  · intro seq env hf
    have hinv := einv_run seq einv_init
    have hsome : (ETHOperation.init.run seq).error.isSome := hinv.1.mpr hf
    rcases herr : (ETHOperation.init.run seq).error with _ | e
    · rw [herr] at hsome
      simp at hsome
    · refine ⟨e, rfl, ?_, ?_⟩
      · rw [areceipt_failed hf, herr]
        rfl
      · rw [averify_failed hf, herr]
        rfl
  · intro h seq env hf
    have hinv := tinv_run seq (tinv_init h)
    have hsome : (((Transaction.init h).run seq)).error.isSome := hinv.mpr hf
    rcases herr : ((Transaction.init h).run seq).error with _ | e
    · rw [herr] at hsome
      simp at hsome
    · refine ⟨e, rfl, ?_, ?_⟩
      · rw [treceipt_failed hf, herr]
        rfl
      · rw [tverify_failed hf, herr]
        rfl

/-- C5, witness: a tracker driven to Failed by a failed COMMIT-depth poll
re-raises its stored error with an empty call trace. -/
theorem C5_witness :
    ((ETHOperation.init.run [(ECall.receipt, envCommitFail)]).awaitReceipt
      envGood).calls = [] := by
  obtain ⟨e, he, hr, hv⟩ :=
    C5_theorem.1 [(ECall.receipt, envCommitFail)] envGood (by decide)
  rw [hr]

/-- C6: for both trackers and any sequence of await calls, the state never
moves backward in the ordering Sent < Mined < Committed < Verified; the only
other permitted move is to Failed, and Failed is absorbing. -/
theorem C6_theorem :
    (∀ (op : ETHOperation) (seq : List (ECall × Env)),
      EState.le op.state ((op.run seq).state)) ∧
    (∀ (t : Transaction) (seq : List (TCall × Env)),
      TState.le t.state ((t.run seq).state)) :=
  ⟨emono_run, tmono_run⟩

/-- C6, witness: the monotonicity theorem evaluated on fresh trackers run
through a verify call. -/
theorem C6_witness :
    EState.le ETHOperation.init.state
      ((ETHOperation.init.run [(ECall.verify, envGood)]).state) ∧
    TState.le (Transaction.init "h").state
      (((Transaction.init "h").run [(TCall.verify, envGood)]).state) :=
  ⟨C6_theorem.1 ETHOperation.init [(ECall.verify, envGood)],
   C6_theorem.2 (Transaction.init "h") [(TCall.verify, envGood)]⟩

/-- C7: for both trackers and every reachable point in any sequence of await
calls, the error field is non-empty exactly when the state is Failed. -/
theorem C7_theorem :
    (∀ seq : List (ECall × Env),
      ((ETHOperation.init.run seq).error.isSome ↔
        (ETHOperation.init.run seq).state = EState.Failed)) ∧
    (∀ (h : String) (seq : List (TCall × Env)),
      (((Transaction.init h).run seq).error.isSome ↔
        ((Transaction.init h).run seq).state = TState.Failed)) :=
  ⟨fun seq => (einv_run seq einv_init).1,
   fun h seq => tinv_run seq (tinv_init h)⟩

/-- C7, witness: the invariant evaluated after a failed COMMIT-depth poll. -/
theorem C7_witness :
    ((ETHOperation.init.run [(ECall.receipt, envCommitFail)]).error.isSome ↔
      (ETHOperation.init.run [(ECall.receipt, envCommitFail)]).state =
        EState.Failed) :=
  C7_theorem.1 [(ECall.receipt, envCommitFail)]

/-- C8: a COMMIT-depth disposition marked unsuccessful moves a Sent sidechain
tracker to Failed in that same call with exactly one poll, and the stored
error holds the raw disposition payload in its value field and a message that
extends the network's failure reason verbatim. -/
theorem C8_theorem : ∀ (env : Env) (t : Transaction),
    t.state = TState.Sent →
    (env.notifyTransaction t.txHash Flag.COMMIT).success = false →
    (t.awaitReceipt env).tr.state = TState.Failed ∧
    (t.awaitReceipt env).calls = [NetCall.notifyTransaction t.txHash Flag.COMMIT] ∧
    (t.awaitReceipt env).tr.error =
      some ⟨"zkSync transaction failed: " ++
        renderReason (env.notifyTransaction t.txHash Flag.COMMIT).failReason,
        ReceiptValue.tx (env.notifyTransaction t.txHash Flag.COMMIT)⟩ ∧
    (t.awaitReceipt env).res =
      Except.error (JsError.zk ⟨"zkSync transaction failed: " ++
        renderReason (env.notifyTransaction t.txHash Flag.COMMIT).failReason,
        ReceiptValue.tx (env.notifyTransaction t.txHash Flag.COMMIT)⟩) ∧
    (∀ reason : String,
      (env.notifyTransaction t.txHash Flag.COMMIT).failReason = some reason →
      (t.awaitReceipt env).tr.error.map ZKSyncTxError.message =
        some ("zkSync transaction failed: " ++ reason)) := by
  intro env t h hex
  rw [treceipt_sent_fail h hex]
  refine ⟨rfl, rfl, rfl, rfl, ?_⟩
  intro reason hr
  simp [hr, renderReason]

/-- C8, witness: the theorem evaluated on a fresh tracker with an environment
rejecting the transaction for reason "insufficient balance". -/
theorem C8_witness :
    ((Transaction.init "h").awaitReceipt envCommitFail).tr.state = TState.Failed ∧
    ((Transaction.init "h").awaitReceipt envCommitFail).tr.error.map
        ZKSyncTxError.message =
      some ("zkSync transaction failed: " ++ "insufficient balance") :=
  ⟨(C8_theorem envCommitFail (Transaction.init "h") rfl (by decide)).1,
   (C8_theorem envCommitFail (Transaction.init "h") rfl (by decide)).2.2.2.2
     "insufficient balance" (by decide)⟩

/-- C9: on an inclusion receipt with more than one matching
priority-operation log, awaitEthereumTxCommit raises no error, reaches Mined
and sets priorityOpId to the serialId of the last matching log in receipt
order. -/
theorem C9_theorem : ∀ env : Env,
    2 ≤ (env.ethWait.logs.filterMap matchSerial).length →
    (ETHOperation.init.awaitEthereumTxCommit env).res =
      Except.ok (some env.ethWait) ∧
    (ETHOperation.init.awaitEthereumTxCommit env).op.state = EState.Mined ∧
    (ETHOperation.init.awaitEthereumTxCommit env).op.priorityOpId =
      (env.ethWait.logs.filterMap matchSerial).getLast? := by
  intro env hlen
  rcases hl : (env.ethWait.logs.filterMap matchSerial).getLast? with _ | n
  · exfalso
    rcases hlist : env.ethWait.logs.filterMap matchSerial with _ | ⟨x, xs⟩
    · rw [hlist] at hlen
      simp at hlen
    · rw [hlist] at hl
      have hsome : (x :: xs).getLast?.isSome := List.getLast?_isSome.mpr (by simp)
      rw [hl] at hsome
      simp at hsome
  · have hs : scanLogs env.ethWait.logs ETHOperation.init.priorityOpId = some n := by
      have hfold := scanLogs_eq_getLast env.ethWait.logs none
      rw [hl] at hfold
      exact hfold
    rw [awaitEthCommit_sent_some rfl hs]
    exact ⟨rfl, rfl, rfl⟩

/-- C9, witness: with two matching logs (serialIds 1 then 2) the extracted
identifier equals the last one. -/
theorem C9_witness :
    (ETHOperation.init.awaitEthereumTxCommit envTwoLogs).op.priorityOpId =
      (envTwoLogs.ethWait.logs.filterMap matchSerial).getLast? :=
  (C9_theorem envTwoLogs (by decide)).2.2

/-- C10: for every reachable ETHOperation tracker, whenever the state is
Mined, Committed, Verified or Failed the priorityOpId field is set. -/
theorem C10_theorem : ∀ seq : List (ECall × Env),
    ((ETHOperation.init.run seq).state = EState.Mined ∨
     (ETHOperation.init.run seq).state = EState.Committed ∨
     (ETHOperation.init.run seq).state = EState.Verified ∨
     (ETHOperation.init.run seq).state = EState.Failed) →
    (ETHOperation.init.run seq).priorityOpId.isSome := by
  intro seq hst
  refine (einv_run seq einv_init).2 ?_
  rcases hst with h | h | h | h <;> simp [h]

/-- C10, witness: the invariant evaluated after awaiting the inclusion
receipt on an all-success environment. -/
theorem C10_witness :
    (ETHOperation.init.run [(ECall.ethCommit, envGood)]).priorityOpId.isSome :=
  C10_theorem [(ECall.ethCommit, envGood)] (by decide)

end ZkSync
